import Mathlib

/-!
Verification of the Bayesian-regression Bitcoin price-prediction pipeline
(`finalbayesreg.py`): window extraction, effective-center selection,
kernel-weighted prediction, blend-model row construction, ensemble
prediction, and the two trading simulators.

Floating-point values are modelled as exact numbers: real numbers (ℝ) for
the kernel/regression components (whose weights use the transcendental
`exp`), and rationals (ℚ) for the purely order/arithmetic components
(window extraction, effective-center selection, trading simulation), which
keeps those definitions executable.
-/

namespace BayesReg

/-- `generate_timeseries prices n` from the source: for `i` in
`range (len prices - n)`, row `i` is `prices[i : i+n]` followed by the
label `prices[i+n] - prices[i+n-1]`. -/
def generate_timeseries (prices : List ℚ) (n : ℕ) : List (List ℚ) :=
  (List.range (prices.length - n)).map fun i =>
    (prices.drop i).take n ++ [prices.getD (i + n) 0 - prices.getD (i + n - 1) 0]

/-- `np.ptp` of one row: maximum minus minimum over the whole row.
(NumPy raises on an empty row; the model returns `0 - 0 = 0` there, a case
never reached by the pipeline.) -/
def ptp (c : List ℚ) : ℚ :=
  (c.max?.getD 0) - (c.min?.getD 0)

/-- Ascending comparison of rows by full-row peak-to-peak range, the key
`np.argsort(np.ptp(centers, axis=1))` sorts by in the source. -/
def ptpLE (a b : List ℚ) : Prop :=
  ptp a ≤ ptp b

instance : DecidableRel ptpLE := fun a b => inferInstanceAs (Decidable (ptp a ≤ ptp b))

/-- `choose_effective_centers(centers, n)` from the source:
`centers[np.argsort(np.ptp(centers, axis=1))[-n:]]` — sort the rows by the
peak-to-peak range of the ENTIRE row (`axis=1` spans all `n+1` columns,
label included) and keep the last `n` of the sorted order. For `n = 0`
Python's `[-0:]` is the full slice `[0:]`, so all rows are returned. -/
def choose_effective_centers (centers : List (List ℚ)) (n : ℕ) : List (List ℚ) :=
  let sorted := centers.insertionSort ptpLE
  if n = 0 then sorted else sorted.drop (sorted.length - n)

/-- Modelled from the spec: effective-center selection as §4.2 words it,
ranking the centroids by peak-to-peak range over the FIRST `nfeat`
(feature) coordinates only, excluding the label coordinate. Used only to
compare the spec's wording against `choose_effective_centers`. -/
def choose_effective_centers_spec (nfeat : ℕ) (centers : List (List ℚ)) (n : ℕ) :
    List (List ℚ) :=
  let sorted := centers.insertionSort fun a b => ptp (a.take nfeat) ≤ ptp (b.take nfeat)
  sorted.drop (sorted.length - n)

/-- Elementwise difference of two equal-length vectors (NumPy `x - x_i`). -/
def vsub (x y : List ℝ) : List ℝ :=
  (x.zip y).map fun p => p.1 - p.2

/-- Euclidean (L2) norm of a vector, `numpy.linalg.norm`. -/
noncomputable def l2norm (v : List ℝ) : ℝ :=
  Real.sqrt ((v.map fun a => a ^ 2).sum)

/-- One kernel weight of `predict_dpi`: `bg.exp(-0.25 * norm(x - x_i) ** 2)`
where `x_i = s[i, :len(x)]` is the center's feature part. -/
noncomputable def kweight (x : List ℝ) (c : List ℝ) : ℝ :=
  Real.exp (-0.25 * l2norm (vsub x (c.take x.length)) ^ 2)

/-- Numerator accumulated by `predict_dpi`: `num += y_i * exp` with
`y_i = s[i, len(x)]` the center's label coordinate. -/
noncomputable def knum (x : List ℝ) (s : List (List ℝ)) : ℝ :=
  (s.map fun c => c.getD x.length 0 * kweight x c).sum

/-- Denominator accumulated by `predict_dpi`: `den += exp`. -/
noncomputable def kden (x : List ℝ) (s : List (List ℝ)) : ℝ :=
  (s.map fun c => kweight x c).sum

/-- Python runtime errors that `predict_dpi` can raise: dividing by a zero
denominator raises `ZeroDivisionError`. -/
inductive PyError where
  | zeroDivisionError
deriving DecidableEq

/-- `predict_dpi(x, s)` from the source: `return num / den` after the
accumulation loop. The division raises `ZeroDivisionError` exactly when
`den = 0` (in particular when `s` is empty, where `num` and `den` are still
the integer `0`); otherwise it returns the quotient. -/
noncomputable def predict_dpi (x : List ℝ) (s : List (List ℝ)) : Except PyError ℝ :=
  if kden x s = 0 then Except.error PyError.zeroDivisionError
  else Except.ok (knum x s / kden x s)

/-- Error kinds the spec (§4.3, §7) requires the Kernel Predictor to
surface as typed failures. -/
inductive KernelError where
  | emptyLibrary
  | degenerateKernelWeights
deriving DecidableEq

/-- Modelled from the spec: the Kernel Predictor contract of §4.3 — fail
with the typed `EmptyLibrary` when the library is empty (detected up
front), with `DegenerateKernelWeights` when the stabilized weight sum is
still zero, and otherwise return the weighted estimate. Used only to
compare the spec's wording against `predict_dpi`. -/
noncomputable def predict_dpi_spec (x : List ℝ) (s : List (List ℝ)) : Except KernelError ℝ :=
  if s = [] then Except.error KernelError.emptyLibrary
  else if kden x s = 0 then Except.error KernelError.degenerateKernelWeights
  else Except.ok (knum x s / kden x s)

/-- Squared Euclidean distance as the spec's kernel formula words it. -/
noncomputable def sq_euclid (x y : List ℝ) : ℝ :=
  ((x.zip y).map fun p => (p.1 - p.2) ^ 2).sum

/-- The spec's §4.3 estimate:
`Σ_j label(S_j) * exp(-0.25 * sq_euclid(x, feature(S_j))) / Σ_j exp(-0.25 * sq_euclid(x, feature(S_j)))`. -/
noncomputable def kernel_estimate_spec (x : List ℝ) (s : List (List ℝ)) : ℝ :=
  (s.map fun c => c.getD x.length 0 * Real.exp (-0.25 * sq_euclid x (c.take x.length))).sum /
    (s.map fun c => Real.exp (-0.25 * sq_euclid x (c.take x.length))).sum

/-- The quotient `num / den` that `predict_dpi` returns in its non-raising
case (`predict_dpi_ok` below: for a non-empty library the denominator is a
positive sum of kernel weights and `predict_dpi` returns `Except.ok` of
this value). Lean's total division makes this `0` at a zero denominator,
but it is only ever used under a non-emptiness hypothesis. -/
noncomputable def dpi_val (x : List ℝ) (s : List (List ℝ)) : ℝ :=
  knum x s / kden x s

/-- Python slice `l[a : b]` (for `a ≤ b ≤ l.length`). -/
def slice (l : List ℝ) (a b : ℕ) : List ℝ :=
  (l.drop a).take (b - a)

/-- A Python-style loop that computes `f` on each element in order and
aborts with the first raised error, collecting the results. -/
def exceptMap {ε α β : Type} (f : α → Except ε β) : List α → Except ε (List β)
  | [] => Except.ok []
  | a :: l => do
    let b ← f a
    let rest ← exceptMap f l
    Except.ok (b :: rest)

/-- One loop iteration of `linear_regression_vars` at `j = i - 720`: the
three `predict_dpi` calls on the trailing windows `prices[i-180:i]`,
`prices[i-360:i]`, `prices[i-720:i]`; any `ZeroDivisionError` they raise
propagates out of the loop. -/
noncomputable def regressionRow (prices : List ℝ) (s1 s2 s3 : List (List ℝ)) (j : ℕ) :
    Except PyError (ℝ × ℝ × ℝ) := do
  let dp1 ← predict_dpi (slice prices (720 + j - 180) (720 + j)) s1
  let dp2 ← predict_dpi (slice prices (720 + j - 360) (720 + j)) s2
  let dp3 ← predict_dpi (slice prices (720 + j - 720) (720 + j)) s3
  Except.ok (dp1, dp2, dp3)

/-- `linear_regression_vars(prices, s1, s2, s3)` from the source: for `i`
in `range(720, len(prices) - 1)`, row `i - 720` of `X` holds the three
kernel predictions on the trailing windows ending at `i`, and entry
`i - 720` of `Y` holds `prices[i+1] - prices[i]`; an error raised by any
`predict_dpi` call aborts the whole computation. Indexed by `j = i - 720`. -/
noncomputable def linear_regression_vars (prices : List ℝ) (s1 s2 s3 : List (List ℝ)) :
    Except PyError (List (ℝ × ℝ × ℝ) × List ℝ) := do
  let X ← exceptMap (regressionRow prices s1 s2 s3) (List.range (prices.length - 721))
  Except.ok (X, (List.range (prices.length - 721)).map fun j =>
    prices.getD (720 + j + 1) 0 - prices.getD (720 + j) 0)

/-- The `X` rows `linear_regression_vars` produces when no call raises:
the `dpi_val` triples of the three trailing windows. -/
noncomputable def regressionX (prices : List ℝ) (s1 s2 s3 : List (List ℝ)) :
    List (ℝ × ℝ × ℝ) :=
  (List.range (prices.length - 721)).map fun j =>
    (dpi_val (slice prices (720 + j - 180) (720 + j)) s1,
      dpi_val (slice prices (720 + j - 360) (720 + j)) s2,
      dpi_val (slice prices (720 + j - 720) (720 + j)) s3)

/-- The `Y` entries of `linear_regression_vars`: the realized next-step
changes `prices[i+1] - prices[i]` for `i = 720 + j`. -/
noncomputable def regressionY (prices : List ℝ) : List ℝ :=
  (List.range (prices.length - 721)).map fun j =>
    prices.getD (720 + j + 1) 0 - prices.getD (720 + j) 0

/-- One loop iteration of `predict_dps` at `j = i - 720`: the blended
prediction `w0 + w1 * dp1 + w2 * dp2 + w3 * dp3`; any `ZeroDivisionError`
raised by a `predict_dpi` call propagates out of the loop. -/
noncomputable def signalRow (prices : List ℝ) (s1 s2 s3 : List (List ℝ))
    (w : ℝ × ℝ × ℝ × ℝ) (j : ℕ) : Except PyError ℝ := do
  let dp1 ← predict_dpi (slice prices (720 + j - 180) (720 + j)) s1
  let dp2 ← predict_dpi (slice prices (720 + j - 360) (720 + j)) s2
  let dp3 ← predict_dpi (slice prices (720 + j - 720) (720 + j)) s3
  Except.ok (w.1 + w.2.1 * dp1 + w.2.2.1 * dp2 + w.2.2.2 * dp3)

/-- `predict_dps(prices, s1, s2, s3, w)` from the source: for `i` in
`range(720, len(prices) - 1)`, append the blended prediction computed from
the three trailing windows ending at `i`; an error raised by any
`predict_dpi` call aborts the whole computation. Indexed by `j = i - 720`. -/
noncomputable def predict_dps (prices : List ℝ) (s1 s2 s3 : List (List ℝ))
    (w : ℝ × ℝ × ℝ × ℝ) : Except PyError (List ℝ) :=
  exceptMap (signalRow prices s1 s2 s3 w) (List.range (prices.length - 721))

/-- The Signal values `predict_dps` produces when no call raises. -/
noncomputable def signalValues (prices : List ℝ) (s1 s2 s3 : List (List ℝ))
    (w : ℝ × ℝ × ℝ × ℝ) : List ℝ :=
  (List.range (prices.length - 721)).map fun j =>
    w.1 + w.2.1 * dpi_val (slice prices (720 + j - 180) (720 + j)) s1 +
      w.2.2.1 * dpi_val (slice prices (720 + j - 360) (720 + j)) s2 +
      w.2.2.2 * dpi_val (slice prices (720 + j - 720) (720 + j)) s3

/-- The decision timesteps of both simulators: Python
`range(720, len(prices) - 1, step)`. (`range` raises on `step = 0`; the
model yields no timesteps there and for the empty negative-step ranges.) -/
def tradeIndices (L step : ℕ) : List ℕ :=
  List.range' 720 ((L - 721 + step - 1) / step) step

/-- One loop iteration of `evaluate_performance` (Policy A) on the state
`(bank_balance, position)` at timestep `i`: buy one unit if
`dps[i-720] > t` and `position ≤ 0`, then sell one unit if
`dps[i-720] < -t` and the (possibly updated) position is `≥ 0`. -/
def trade_step (dps prices : List ℚ) (t : ℚ) (st : ℚ × ℤ) (i : ℕ) : ℚ × ℤ :=
  let d := dps.getD (i - 720) 0
  let st1 := if d > t ∧ st.2 ≤ 0 then (st.1 - prices.getD i 0, st.2 + 1) else st
  if d < -t ∧ st1.2 ≥ 0 then (st1.1 + prices.getD i 0, st1.2 - 1) else st1

/-- `evaluate_performance(prices, dps, t, step)` from the source: fold the
Policy A step over the decision timesteps starting from `(0, 0)`, then
close out a long (`position == 1`) or cover a short (`position == -1`) at
the final price. -/
def evaluate_performance (prices dps : List ℚ) (t : ℚ) (step : ℕ) : ℚ :=
  let fin := (tradeIndices prices.length step).foldl (trade_step dps prices t) (0, 0)
  let b1 := if fin.2 = 1 then fin.1 + prices.getD (prices.length - 1) 0 else fin.1
  if fin.2 = -1 then b1 - prices.getD (prices.length - 1) 0 else b1

/-- One loop iteration of `evaluate_performance2` (Policy B) on the state
`(bank_balance2, bitcoin)` at timestep `i`: the same threshold comparisons
as Policy A but with no position-bound guard. -/
def trade_step2 (dps prices : List ℚ) (t : ℚ) (st : ℚ × ℤ) (i : ℕ) : ℚ × ℤ :=
  let d := dps.getD (i - 720) 0
  let st1 := if d > t then (st.1 - prices.getD i 0, st.2 + 1) else st
  if d < -t then (st1.1 + prices.getD i 0, st1.2 - 1) else st1

/-- `evaluate_performance2(prices, dps, t, step)` from the source: fold the
Policy B step over the decision timesteps starting from `(0, 0)` and
return the pair `(bank_balance2, bitcoin)` with no close-out. -/
def evaluate_performance2 (prices dps : List ℚ) (t : ℚ) (step : ℕ) : ℚ × ℤ :=
  (tradeIndices prices.length step).foldl (trade_step2 dps prices t) (0, 0)

theorem getD_map_range {α : Type} (f : ℕ → α) {n j : ℕ} (d : α) (hj : j < n) :
    ((List.range n).map f).getD j d = f j := by
  rw [List.getD_eq_getElem _ _ (by simpa using hj)]
  simp

theorem window_eq_map_range {α : Type} [Inhabited α] (l : List α) {i n : ℕ}
    (h : i + n ≤ l.length) :
    (l.drop i).take n = (List.range n).map fun j => l.getD (i + j) default := by
  apply List.ext_getElem
  · simp
    omega
  · intro j h1 h2
    have hjn : j < n := by
      simp [List.length_take, List.length_drop] at h1
      omega
    have hij : i + j < l.length := by omega
    rw [List.getElem_take, List.getElem_drop, List.getElem_map, List.getElem_range,
      List.getD_eq_getElem _ _ hij]

/-- C3: the Window Extractor returns exactly `L - n` (feature, label) rows
in order, row `i` being `price[i .. i+n-1]` followed by the label
`price[i+n] - price[i+n-1]`; and on prices `[1,2,3,4,5]` with `n = 2` it
yields exactly `([1,2],1), ([2,3],1), ([3,4],1)`. -/
theorem generate_timeseries_windows :
    (∀ (prices : List ℚ) (n : ℕ), 0 < n → n < prices.length →
      (generate_timeseries prices n).length = prices.length - n ∧
      ∀ i, i < prices.length - n →
        (generate_timeseries prices n).getD i [] =
          ((List.range n).map fun j => prices.getD (i + j) 0) ++
            [prices.getD (i + n) 0 - prices.getD (i + n - 1) 0]) ∧
    generate_timeseries [1, 2, 3, 4, 5] 2 = [[1, 2, 1], [2, 3, 1], [3, 4, 1]] := by
  constructor
  · intro prices n _ hn
    constructor
    · simp [generate_timeseries]
    · intro i hi
      rw [generate_timeseries, getD_map_range _ _ hi]
      have hwin : (prices.drop i).take n =
          (List.range n).map fun j => prices.getD (i + j) 0 := by
        simpa using window_eq_map_range prices (by omega)
      rw [hwin]
  · norm_num [generate_timeseries, List.range_succ]

/-- Witness for C3 at prices `[1,2,3,4,5]`, `n = 2`. -/
theorem generate_timeseries_windows_witness :
    (0 < 2 ∧ 2 < ([1, 2, 3, 4, 5] : List ℚ).length) ∧
    (generate_timeseries [1, 2, 3, 4, 5] 2).length = ([1, 2, 3, 4, 5] : List ℚ).length - 2 :=
  ⟨⟨by norm_num, by norm_num⟩,
    (generate_timeseries_windows.1 [1, 2, 3, 4, 5] 2 (by norm_num) (by norm_num)).1⟩

theorem drop_sorted_top_ptp (centers : List (List ℚ)) (m : ℕ)
    (hm : m ≤ centers.length) :
    ((centers.insertionSort ptpLE).drop ((centers.insertionSort ptpLE).length - m)).length
        = m ∧
    ∀ c ∈ (centers.insertionSort ptpLE).drop ((centers.insertionSort ptpLE).length - m),
      c ∈ centers ∧ (centers.filter fun d => ptp c < ptp d).length < m := by
  have hperm : (centers.insertionSort ptpLE).Perm centers := List.perm_insertionSort _ _
  have hlen : (centers.insertionSort ptpLE).length = centers.length := hperm.length_eq
  haveI : IsTotal (List ℚ) ptpLE := ⟨fun a b => le_total _ _⟩
  haveI : IsTrans (List ℚ) ptpLE := ⟨fun _ _ _ hab hbc => le_trans hab hbc⟩
  have hsorted : List.Sorted ptpLE (centers.insertionSort ptpLE) :=
    List.sorted_insertionSort _ _
  constructor
  · simp only [List.length_drop]
    omega
  · intro c hc
    constructor
    · exact hperm.subset (List.drop_subset _ _ hc)
    · have hsplit := List.take_append_drop ((centers.insertionSort ptpLE).length - m)
        (centers.insertionSort ptpLE)
      have hcross : ∀ a ∈ (centers.insertionSort ptpLE).take
            ((centers.insertionSort ptpLE).length - m),
          ∀ b ∈ (centers.insertionSort ptpLE).drop
            ((centers.insertionSort ptpLE).length - m), ptpLE a b := by
        have := hsorted
        rw [← hsplit] at this
        exact (List.pairwise_append.mp this).2.2
      have hfilter_eq : (centers.filter fun d => ptp c < ptp d).length =
          ((centers.insertionSort ptpLE).filter fun d => ptp c < ptp d).length :=
        ((hperm.filter _).length_eq).symm
      have hpre : ((centers.insertionSort ptpLE).take
          ((centers.insertionSort ptpLE).length - m)).filter
            (fun d => ptp c < ptp d) = [] := by
        rw [List.filter_eq_nil_iff]
        intro a ha
        have : ptp a ≤ ptp c := hcross a ha c hc
        simp only [decide_eq_true_eq]
        exact not_lt.mpr this
      have hsuf : (((centers.insertionSort ptpLE).drop
          ((centers.insertionSort ptpLE).length - m)).filter
            (fun d => ptp c < ptp d)).length <
          ((centers.insertionSort ptpLE).drop
            ((centers.insertionSort ptpLE).length - m)).length := by
        rw [List.length_filter_lt_length_iff_exists]
        exact ⟨c, hc, by simp⟩
      have hdlen : ((centers.insertionSort ptpLE).drop
          ((centers.insertionSort ptpLE).length - m)).length = m := by
        rw [List.length_drop]
        omega
      calc (centers.filter fun d => ptp c < ptp d).length
          = ((centers.insertionSort ptpLE).filter fun d => ptp c < ptp d).length :=
            hfilter_eq
        _ = (((centers.insertionSort ptpLE).take
              ((centers.insertionSort ptpLE).length - m)).filter
                (fun d => ptp c < ptp d)).length +
            (((centers.insertionSort ptpLE).drop
              ((centers.insertionSort ptpLE).length - m)).filter
                (fun d => ptp c < ptp d)).length := by
            rw [← List.length_append, ← List.filter_append, hsplit]
        _ < m := by
            rw [hpre, List.length_nil, Nat.zero_add]
            exact lt_of_lt_of_eq hsuf hdlen

/-- C2 (amended): for `1 ≤ m ≤ k`, effective-center selection returns the
`m` centroids with the largest peak-to-peak range computed over ALL `n+1`
coordinates of the row, label column included — the selection has size
`m`, its members come from the input, and each selected centroid is beaten
(strictly, by full-row range) by fewer than `m` input centroids; for
`m = 0` Python's `[-0:]` is the full slice, so all `k` centroids are
returned. -/
theorem choose_effective_centers_top_ptp (centers : List (List ℚ)) (m : ℕ)
    (hm : m ≤ centers.length) :
    (0 < m →
      (choose_effective_centers centers m).length = m ∧
      ∀ c ∈ choose_effective_centers centers m,
        c ∈ centers ∧ (centers.filter fun d => ptp c < ptp d).length < m) ∧
    (m = 0 →
      (choose_effective_centers centers m).length = centers.length ∧
      ∀ c ∈ choose_effective_centers centers m, c ∈ centers) := by
  constructor
  · intro hm0
    have heq : choose_effective_centers centers m =
        (centers.insertionSort ptpLE).drop ((centers.insertionSort ptpLE).length - m) := by
      simp only [choose_effective_centers]
      rw [if_neg (by omega : ¬m = 0)]
    rw [heq]
    exact drop_sorted_top_ptp centers m hm
  · intro hm0
    subst hm0
    have heq : choose_effective_centers centers 0 = centers.insertionSort ptpLE := rfl
    constructor
    · rw [heq]
      exact (List.perm_insertionSort ptpLE centers).length_eq
    · intro c hc
      rw [heq] at hc
      exact (List.perm_insertionSort ptpLE centers).subset hc

/-- Witness for C2's amended theorem on a two-centroid library, `m = 1`. -/
theorem choose_effective_centers_top_ptp_witness :
    1 ≤ ([[0, 10, 0], [0, 5, 20]] : List (List ℚ)).length ∧ 0 < 1 ∧
    (choose_effective_centers [[0, 10, 0], [0, 5, 20]] 1).length = 1 :=
  ⟨by norm_num, by norm_num,
    ((choose_effective_centers_top_ptp [[0, 10, 0], [0, 5, 20]] 1 (by norm_num)).1
      (by norm_num)).1⟩

/-- C2 counterexample: on the centroids `[0,10,0]` (feature range 10, full
range 10) and `[0,5,20]` (feature range 5, full range 20) with feature
dimension `n = 2` and `m = 1`, the code selects `[0,5,20]`, while the
feature-only rule of the claim selects `[0,10,0]` — the strictly larger
feature-coordinate range belongs to the centroid the code rejects.
Moreover at `m = 0` the code returns ALL centroids (Python's `[-0:]` is
the full slice), not the empty selection the claim's rule would give. -/
theorem choose_effective_centers_label_column_counterexample :
    choose_effective_centers [[0, 10, 0], [0, 5, 20]] 1 = [[0, 5, 20]] ∧
    choose_effective_centers_spec 2 [[0, 10, 0], [0, 5, 20]] 1 = [[0, 10, 0]] ∧
    ptp (([0, 5, 20] : List ℚ).take 2) < ptp (([0, 10, 0] : List ℚ).take 2) ∧
    choose_effective_centers [[0, 10, 0], [0, 5, 20]] 0 = [[0, 10, 0], [0, 5, 20]] := by
  refine ⟨?_, ?_, ?_, ?_⟩
  · norm_num [choose_effective_centers, List.insertionSort, List.orderedInsert, ptpLE, ptp,
      List.max?, List.min?]
  · norm_num [choose_effective_centers_spec, List.insertionSort, List.orderedInsert, ptp,
      List.max?, List.min?]
  · norm_num [ptp, List.max?, List.min?]
  · norm_num [choose_effective_centers, List.insertionSort, List.orderedInsert, ptpLE, ptp,
      List.max?, List.min?]

theorem zip_self {α : Type} (l : List α) : l.zip l = l.map fun a => (a, a) := by
  induction l with
  | nil => rfl
  | cons a l ih => simp [List.zip_cons_cons, ih]

theorem sq_euclid_self (x : List ℝ) : sq_euclid x x = 0 := by
  rw [sq_euclid, zip_self, List.map_map]
  exact List.sum_eq_zero (by simp)

theorem kweight_eq_spec (x c : List ℝ) :
    kweight x c = Real.exp (-0.25 * sq_euclid x (c.take x.length)) := by
  rw [kweight, l2norm, Real.sq_sqrt (List.sum_nonneg (by
    intro a ha
    obtain ⟨b, _, rfl⟩ := List.mem_map.mp ha
    positivity))]
  rw [vsub, List.map_map, sq_euclid]
  rfl

theorem kweight_pos (x c : List ℝ) : 0 < kweight x c :=
  Real.exp_pos _

theorem kden_pos (x : List ℝ) {s : List (List ℝ)} (hs : s ≠ []) : 0 < kden x s := by
  apply List.sum_pos
  · intro w hw
    obtain ⟨c, _, rfl⟩ := List.mem_map.mp hw
    exact kweight_pos x c
  · simpa using hs

/-- C1: on every non-empty library the Kernel Predictor returns exactly the
spec's Nadaraya-Watson estimate
`Σ_j label(S_j)·exp(-0.25·sq_euclid(x, feature(S_j))) / Σ_j exp(-0.25·sq_euclid(x, feature(S_j)))`
(the source's `norm(x - x_i) ** 2` equals the squared Euclidean distance);
in particular, on two centers whose features both equal the query with
labels `L1`, `L2`, it returns `(L1 + L2) / 2`. -/
theorem predict_dpi_kernel_formula :
    (∀ (x : List ℝ) (s : List (List ℝ)), s ≠ [] →
      predict_dpi x s = Except.ok (kernel_estimate_spec x s)) ∧
    ∀ (x : List ℝ) (L1 L2 : ℝ),
      predict_dpi x [x ++ [L1], x ++ [L2]] = Except.ok ((L1 + L2) / 2) := by
  have hknum : ∀ (x : List ℝ) (s : List (List ℝ)), knum x s =
      (s.map fun c => c.getD x.length 0 * Real.exp (-0.25 * sq_euclid x (c.take x.length))).sum := by
    intro x s
    simp only [knum, kweight_eq_spec]
  have hkden : ∀ (x : List ℝ) (s : List (List ℝ)), kden x s =
      (s.map fun c => Real.exp (-0.25 * sq_euclid x (c.take x.length))).sum := by
    intro x s
    simp only [kden, kweight_eq_spec]
  constructor
  · intro x s hs
    rw [predict_dpi, if_neg (ne_of_gt (kden_pos x hs)), kernel_estimate_spec,
      hknum, hkden]
  · intro x L1 L2
    have htake : ∀ L : ℝ, (x ++ [L]).take x.length = x := fun L => List.take_left x [L]
    have hgetD : ∀ L : ℝ, (x ++ [L]).getD x.length 0 = L := by
      intro L
      rw [List.getD_append_right x [L] 0 x.length (le_refl _)]
      simp
    have hw : ∀ L : ℝ, kweight x (x ++ [L]) = 1 := by
      intro L
      rw [kweight_eq_spec, htake, sq_euclid_self]
      simp
    have hden : kden x [x ++ [L1], x ++ [L2]] = 2 := by
      simp [kden, hw]
      norm_num
    have hnum : knum x [x ++ [L1], x ++ [L2]] = L1 + L2 := by
      simp [knum, hw, hgetD]
    rw [predict_dpi, if_neg (by rw [hden]; norm_num), hden, hnum]

/-- Witness for C1 on the query `[0]` and the non-empty library
`[[0, 3], [0, 5]]`. -/
theorem predict_dpi_kernel_formula_witness :
    ([[(0 : ℝ), 3], [0, 5]] : List (List ℝ)) ≠ [] ∧
    predict_dpi [(0 : ℝ)] [[0, 3], [0, 5]] =
      Except.ok (kernel_estimate_spec [(0 : ℝ)] [[0, 3], [0, 5]]) :=
  ⟨by simp, predict_dpi_kernel_formula.1 [(0 : ℝ)] [[0, 3], [0, 5]] (by simp)⟩

/-- C9: on a single-center library of matching dimension the Kernel
Predictor returns exactly that center's label, whatever the distance: the
sole kernel weight cancels between numerator and denominator. -/
theorem predict_dpi_single_center (x c : List ℝ) (_hc : c.length = x.length + 1) :
    predict_dpi x [c] = Except.ok (c.getD x.length 0) := by
  have hden : kden x [c] = kweight x c := by simp [kden]
  have hpos : kweight x c ≠ 0 := ne_of_gt (kweight_pos x c)
  rw [predict_dpi, if_neg (by rw [hden]; exact hpos), hden, knum]
  simp only [List.map_cons, List.map_nil, List.sum_cons, List.sum_nil, add_zero]
  rw [mul_div_assoc, div_self hpos, mul_one]

/-- Witness for C9: query `[0]`, single center `[1, 5]` (feature `[1]` at
distance 1 from the query, label 5). -/
theorem predict_dpi_single_center_witness :
    ([(1 : ℝ), 5] : List ℝ).length = [(0 : ℝ)].length + 1 ∧
    predict_dpi [(0 : ℝ)] [[1, 5]] = Except.ok 5 := by
  refine ⟨by simp, ?_⟩
  have h := predict_dpi_single_center [(0 : ℝ)] [1, 5] (by simp)
  simpa using h

/-- C8 (amended): on an empty library the Kernel Predictor fails — but
with the untyped Python `ZeroDivisionError` raised at the final `num / den`
division (both accumulators still `0`), not with a typed `EmptyLibrary`
failure detected up front. -/
theorem predict_dpi_empty_library_zero_division (x : List ℝ) :
    predict_dpi x [] = Except.error PyError.zeroDivisionError := by
  simp [predict_dpi, kden]

/-- C8 counterexample: at the concrete query `[0]` and the empty library,
the code's result is the untyped `ZeroDivisionError` from `0 / 0`, whereas
the spec's §4.3 contract demands the typed `EmptyLibrary` failure. -/
theorem predict_dpi_empty_library_counterexample :
    predict_dpi [(0 : ℝ)] [] = Except.error PyError.zeroDivisionError ∧
    predict_dpi_spec [(0 : ℝ)] [] = Except.error KernelError.emptyLibrary := by
  constructor
  · simp [predict_dpi, kden]
  · simp [predict_dpi_spec]

theorem predict_dpi_ok (x : List ℝ) {s : List (List ℝ)} (hs : s ≠ []) :
    predict_dpi x s = Except.ok (dpi_val x s) := by
  rw [predict_dpi, if_neg (ne_of_gt (kden_pos x hs)), dpi_val]

theorem exceptMap_ok {ε α β : Type} (f : α → Except ε β) (g : α → β) (l : List α)
    (h : ∀ a ∈ l, f a = Except.ok (g a)) :
    exceptMap f l = Except.ok (l.map g) := by
  induction l with
  | nil => rfl
  | cons a l ih =>
    have ha := h a (List.mem_cons_self a l)
    have hl := ih fun b hb => h b (List.mem_cons_of_mem a hb)
    rw [exceptMap, ha, hl]
    rfl

theorem regressionRow_ok (prices : List ℝ) {s1 s2 s3 : List (List ℝ)}
    (hs1 : s1 ≠ []) (hs2 : s2 ≠ []) (hs3 : s3 ≠ []) (j : ℕ) :
    regressionRow prices s1 s2 s3 j =
      Except.ok (dpi_val (slice prices (720 + j - 180) (720 + j)) s1,
        dpi_val (slice prices (720 + j - 360) (720 + j)) s2,
        dpi_val (slice prices (720 + j - 720) (720 + j)) s3) := by
  rw [regressionRow, predict_dpi_ok _ hs1, predict_dpi_ok _ hs2, predict_dpi_ok _ hs3]
  rfl

theorem signalRow_ok (prices : List ℝ) {s1 s2 s3 : List (List ℝ)}
    (hs1 : s1 ≠ []) (hs2 : s2 ≠ []) (hs3 : s3 ≠ []) (w : ℝ × ℝ × ℝ × ℝ) (j : ℕ) :
    signalRow prices s1 s2 s3 w j =
      Except.ok (w.1 + w.2.1 * dpi_val (slice prices (720 + j - 180) (720 + j)) s1 +
        w.2.2.1 * dpi_val (slice prices (720 + j - 360) (720 + j)) s2 +
        w.2.2.2 * dpi_val (slice prices (720 + j - 720) (720 + j)) s3) := by
  rw [signalRow, predict_dpi_ok _ hs1, predict_dpi_ok _ hs2, predict_dpi_ok _ hs3]
  rfl

/-- C4: on a training period of length at least 722 with non-empty
libraries (the only kind the pipeline produces), the Blend Model Trainer
raises no error and builds exactly `L - 721` rows; the row of each
timestep `i` with `720 ≤ i ≤ L - 2` (stored at index `i - 720`) holds as
its three predictors exactly the values the Kernel Predictor returns on
the trailing windows `prices[i-180:i]`, `prices[i-360:i]`,
`prices[i-720:i]`, with dependent value `prices[i+1] - prices[i]`. -/
theorem linear_regression_vars_rows (prices : List ℝ) (s1 s2 s3 : List (List ℝ))
    (hL : 722 ≤ prices.length)
    (hs1 : s1 ≠ []) (hs2 : s2 ≠ []) (hs3 : s3 ≠ []) :
    linear_regression_vars prices s1 s2 s3 =
      Except.ok (regressionX prices s1 s2 s3, regressionY prices) ∧
    (regressionX prices s1 s2 s3).length = prices.length - 721 ∧
    (regressionY prices).length = prices.length - 721 ∧
    ∀ i, 720 ≤ i → i ≤ prices.length - 2 →
      predict_dpi (slice prices (i - 180) i) s1 =
        Except.ok ((regressionX prices s1 s2 s3).getD (i - 720) (0, 0, 0)).1 ∧
      predict_dpi (slice prices (i - 360) i) s2 =
        Except.ok ((regressionX prices s1 s2 s3).getD (i - 720) (0, 0, 0)).2.1 ∧
      predict_dpi (slice prices (i - 720) i) s3 =
        Except.ok ((regressionX prices s1 s2 s3).getD (i - 720) (0, 0, 0)).2.2 ∧
      (regressionY prices).getD (i - 720) 0 =
        prices.getD (i + 1) 0 - prices.getD i 0 := by
  refine ⟨?_, by simp [regressionX], by simp [regressionY], ?_⟩
  · rw [linear_regression_vars,
      exceptMap_ok (regressionRow prices s1 s2 s3)
        (fun j => (dpi_val (slice prices (720 + j - 180) (720 + j)) s1,
          dpi_val (slice prices (720 + j - 360) (720 + j)) s2,
          dpi_val (slice prices (720 + j - 720) (720 + j)) s3))
        (List.range (prices.length - 721))
        (fun j _ => regressionRow_ok prices hs1 hs2 hs3 j)]
    rfl
  · intro i hi1 hi2
    have hidx : i - 720 < prices.length - 721 := by omega
    have h720 : 720 + (i - 720) = i := by omega
    refine ⟨?_, ?_, ?_, ?_⟩
    · rw [regressionX, getD_map_range _ _ hidx, h720, predict_dpi_ok _ hs1]
    · rw [regressionX, getD_map_range _ _ hidx, h720, predict_dpi_ok _ hs2]
    · rw [regressionX, getD_map_range _ _ hidx, h720, predict_dpi_ok _ hs3]
    · rw [regressionY, getD_map_range _ _ hidx, h720]

/-- Witness for C4 on a constant training period of length 722 and
singleton libraries. -/
theorem linear_regression_vars_rows_witness :
    722 ≤ (List.replicate 722 (0 : ℝ)).length ∧
    ([[(0 : ℝ)]] : List (List ℝ)) ≠ [] ∧
    (regressionX (List.replicate 722 (0 : ℝ)) [[0]] [[0]] [[0]]).length =
      (List.replicate 722 (0 : ℝ)).length - 721 :=
  ⟨by rw [List.length_replicate], by simp,
    (linear_regression_vars_rows (List.replicate 722 0) [[0]] [[0]] [[0]]
      (by rw [List.length_replicate]) (by simp) (by simp) (by simp)).2.1⟩

/-- C5: over a test period of length `L ≥ 721` with non-empty libraries,
the Ensemble Predictor raises no error and returns a Signal of length
exactly `L - 720 - 1`, whose index 0 is the blended prediction of the
first eligible timestep `i = 720` (windows `prices[540:720]`,
`prices[360:720]`, `prices[0:720]`), not of absolute timestep 0. -/
theorem predict_dps_signal (prices : List ℝ) (s1 s2 s3 : List (List ℝ))
    (w : ℝ × ℝ × ℝ × ℝ) (hL : 721 ≤ prices.length)
    (hs1 : s1 ≠ []) (hs2 : s2 ≠ []) (hs3 : s3 ≠ []) :
    predict_dps prices s1 s2 s3 w = Except.ok (signalValues prices s1 s2 s3 w) ∧
    (signalValues prices s1 s2 s3 w).length = prices.length - 720 - 1 ∧
    (722 ≤ prices.length →
      (signalValues prices s1 s2 s3 w).getD 0 0 =
        w.1 + w.2.1 * dpi_val (slice prices 540 720) s1 +
          w.2.2.1 * dpi_val (slice prices 360 720) s2 +
          w.2.2.2 * dpi_val (slice prices 0 720) s3) := by
  refine ⟨?_, ?_, ?_⟩
  · rw [predict_dps,
      exceptMap_ok (signalRow prices s1 s2 s3 w)
        (fun j => w.1 + w.2.1 * dpi_val (slice prices (720 + j - 180) (720 + j)) s1 +
          w.2.2.1 * dpi_val (slice prices (720 + j - 360) (720 + j)) s2 +
          w.2.2.2 * dpi_val (slice prices (720 + j - 720) (720 + j)) s3)
        (List.range (prices.length - 721))
        (fun j _ => signalRow_ok prices hs1 hs2 hs3 w j)]
    rfl
  · simp only [signalValues, List.length_map, List.length_range]
    omega
  · intro hL2
    rw [signalValues, getD_map_range _ _ (by omega : 0 < prices.length - 721)]

/-- Witness for C5 on a constant test period of length 722 and singleton
libraries. -/
theorem predict_dps_signal_witness :
    721 ≤ (List.replicate 722 (0 : ℝ)).length ∧
    ([[(0 : ℝ)]] : List (List ℝ)) ≠ [] ∧
    (signalValues (List.replicate 722 (0 : ℝ)) [[0]] [[0]] [[0]] (0, 0, 0, 0)).length =
      (List.replicate 722 (0 : ℝ)).length - 720 - 1 :=
  ⟨by rw [List.length_replicate]; norm_num, by simp,
    (predict_dps_signal (List.replicate 722 0) [[0]] [[0]] [[0]] (0, 0, 0, 0)
      (by rw [List.length_replicate]; norm_num) (by simp) (by simp) (by simp)).2.1⟩

theorem trade_step_pos_bounds (dps prices : List ℚ) (t : ℚ) (st : ℚ × ℤ) (i : ℕ)
    (h1 : -1 ≤ st.2) (h2 : st.2 ≤ 1) :
    -1 ≤ (trade_step dps prices t st i).2 ∧ (trade_step dps prices t st i).2 ≤ 1 := by
  rcases st with ⟨b, p⟩
  simp only [trade_step]
  split_ifs <;> (try simp_all) <;> omega

theorem foldl_trade_step_pos_bounds (dps prices : List ℚ) (t : ℚ) (l : List ℕ)
    (st : ℚ × ℤ) (h1 : -1 ≤ st.2) (h2 : st.2 ≤ 1) :
    -1 ≤ (l.foldl (trade_step dps prices t) st).2 ∧
      (l.foldl (trade_step dps prices t) st).2 ≤ 1 := by
  induction l generalizing st with
  | nil => exact ⟨h1, h2⟩
  | cons a l ih =>
    exact ih _ (trade_step_pos_bounds dps prices t st a h1 h2).1
      (trade_step_pos_bounds dps prices t st a h1 h2).2

/-- C6: throughout an entire Policy A run — after any prefix of the
decision timesteps, starting flat at `(0, 0)` — the position stays within
`{-1, 0, +1}`, for every signal sequence, price sequence, threshold and
stride: the buy branch of `trade_step` is guarded by `position ≤ 0` and
the sell branch by `position ≥ 0`. -/
theorem evaluate_performance_position_bounded (prices dps : List ℚ) (t : ℚ)
    (step k : ℕ) :
    -1 ≤ (((tradeIndices prices.length step).take k).foldl
        (trade_step dps prices t) (0, 0)).2 ∧
      (((tradeIndices prices.length step).take k).foldl
        (trade_step dps prices t) (0, 0)).2 ≤ 1 :=
  foldl_trade_step_pos_bounds dps prices t _ (0, 0) (by norm_num) (by norm_num)

/-- C10: with a nonnegative threshold, the buy condition
`dps[i-720] > t` and the sell condition `dps[i-720] < -t` shared by both
simulators are mutually exclusive, so at most one branch executes per
evaluated timestep; consequently one step of Policy B (and of Policy A)
changes the inventory by an element of `{-1, 0, +1}`. -/
theorem trade_branches_mutually_exclusive (dps prices : List ℚ) (t : ℚ) (ht : 0 ≤ t)
    (st : ℚ × ℤ) (i : ℕ) :
    ¬(dps.getD (i - 720) 0 > t ∧ dps.getD (i - 720) 0 < -t) ∧
    (trade_step2 dps prices t st i).2 - st.2 ∈ ({-1, 0, 1} : Set ℤ) ∧
    (trade_step dps prices t st i).2 - st.2 ∈ ({-1, 0, 1} : Set ℤ) := by
  refine ⟨fun hcon => by linarith [hcon.1, hcon.2], ?_, ?_⟩
  · rcases st with ⟨b, p⟩
    simp only [trade_step2, Set.mem_insert_iff, Set.mem_singleton_iff]
    split_ifs <;> simp_all
  · rcases st with ⟨b, p⟩
    simp only [trade_step, Set.mem_insert_iff, Set.mem_singleton_iff]
    split_ifs <;> simp_all

/-- Witness for C10 at threshold `0`, empty signal and price lists,
initial state `(0, 0)`, timestep `0`. -/
theorem trade_branches_mutually_exclusive_witness :
    (0 : ℚ) ≤ 0 ∧
    (trade_step2 [] [] 0 (0, 0) 0).2 - (0 : ℤ) ∈ ({-1, 0, 1} : Set ℤ) :=
  ⟨le_refl 0, (trade_branches_mutually_exclusive [] [] 0 (le_refl 0) (0, 0) 0).2.1⟩

end BayesReg
